import Mathlib

/-!
Verification of the chart-legend interaction logic of `chart-components`.

The embedding follows the two source variants:
* `ChartLegend` — `src/internal/components/chart-legend/index.tsx`
  (dual-group legend: `onSelectItem`, `onToggleItem`, `onKeyDown`,
  `getNextFocusTarget`, the `ResizeObserver` stacking decision, the
  document-level Escape listener, `onBlur`);
* `LegendUnified` — the single-group variant (`selectItem`, `toggleItem`,
  `getNextFocusTarget` keyed by the last-focused index, `useContainerQuery`
  stacking).

`DebouncedCall` is imported by both variants from `../../utils/utils`, a file
that is not part of the provided sources; it is modelled from the spec's
contract (see `DebState` below).
-/

namespace ChartComponents

/-- A legend item as described by the `LegendItem` interface: a stable id,
a display name, and the `visible` / `highlighted` / `oppositeAxis` flags.
The `marker` render node carries no logic and is omitted. -/
structure LegendItem where
  id : String
  name : String
  visible : Bool
  highlighted : Bool
  oppositeAxis : Bool
deriving Repr, DecidableEq

/-- `items.filter((i) => i.visible).map((i) => i.id)` — the visible-id list
computed at the top of both `selectItem` and `toggleItem`. -/
def visibleIds (items : List LegendItem) : List String :=
  (items.filter (·.visible)).map (·.id)

/-- `onSelectItem` / `selectItem`: if the visible-id list has length one and
its single element equals `itemId`, emit all item ids; otherwise emit
`[itemId]`. -/
def selectItem (items : List LegendItem) (itemId : String) : List String :=
  let visibleItems := visibleIds items
  if visibleItems.length = 1 ∧ visibleItems.head? = some itemId then
    items.map (·.id)
  else
    [itemId]

/-- `onToggleItem` / `toggleItem`: if `itemId` is in the visible-id list,
emit that list with `itemId` filtered out; otherwise emit the list with
`itemId` appended. -/
def toggleItem (items : List LegendItem) (itemId : String) : List String :=
  let visibleItems := visibleIds items
  if itemId ∈ visibleItems then
    visibleItems.filter (fun visibleItemId => visibleItemId ≠ itemId)
  else
    visibleItems ++ [itemId]

theorem length_one_head_iff {l : List String} {x : String} :
    (l.length = 1 ∧ l.head? = some x) ↔ l = [x] := by
  cases l with
  | nil => simp
  | cons a t =>
    cases t with
    | nil => simp [eq_comm]
    | cons b u => simp

/-- C1 -- "select" on item `X` emits the list of all item ids when `X` is
currently the sole visible item, and the one-element list `[X]` in every
other state. -/
theorem selectItem_spec (items : List LegendItem) (itemId : String) :
    selectItem items itemId =
      if visibleIds items = [itemId] then items.map (·.id) else [itemId] := by
  unfold selectItem
  by_cases hc : visibleIds items = [itemId]
  · rw [if_pos (length_one_head_iff.mpr hc), if_pos hc]
  · rw [if_neg (fun h => hc (length_one_head_iff.mp h)), if_neg hc]

theorem mem_visibleIds_of_nodup {items : List LegendItem} {i : LegendItem}
    (hnd : (items.map (·.id)).Nodup) (hi : i ∈ items) :
    i.id ∈ visibleIds items ↔ i.visible = true := by
  unfold visibleIds
  constructor
  · intro h
    simp only [List.mem_map, List.mem_filter] at h
    obtain ⟨j, ⟨hj, hjv⟩, hjid⟩ := h
    have : j = i := List.inj_on_of_nodup_map hnd hj hi hjid
    subst this
    exact hjv
  · intro h
    exact List.mem_map_of_mem _ (List.mem_filter.mpr ⟨hi, h⟩)

/-- C2 -- "toggle" on item `X` emits the current visible-id list minus `X`
when `X` is visible, and the current visible-id list plus `X` when it is
not; for every other item (with ids unique, as the data model requires),
membership in the emitted list equals its current visibility. -/
theorem toggleItem_spec (items : List LegendItem) (itemId : String) :
    (itemId ∈ visibleIds items →
      toggleItem items itemId =
        (visibleIds items).filter (fun y => y ≠ itemId)) ∧
    (itemId ∉ visibleIds items →
      toggleItem items itemId = visibleIds items ++ [itemId]) ∧
    ((items.map (·.id)).Nodup → ∀ i ∈ items, i.id ≠ itemId →
      (i.id ∈ toggleItem items itemId ↔ i.visible = true)) := by
  refine ⟨fun hmem => ?_, fun hmem => ?_, fun hnd i hi hne => ?_⟩
  · simp only [toggleItem, if_pos hmem]
  · simp only [toggleItem, if_neg hmem]
  · rw [← mem_visibleIds_of_nodup hnd hi]
    unfold toggleItem
    by_cases hmem : itemId ∈ visibleIds items
    · rw [if_pos hmem]
      simp [List.mem_filter, hne]
    · rw [if_neg hmem]
      simp [hne]

/-- Witness for C2 on the spec scenario items `a`, `b`, `c`
(`a`, `b` visible, `c` hidden): toggling `b` removes it, toggling `c`
adds it, and `a`'s membership tracks its visibility in both cases. -/
theorem toggleItem_spec_witness :
    toggleItem
        [⟨"a", "A", true, false, false⟩, ⟨"b", "B", true, false, false⟩,
          ⟨"c", "C", false, false, false⟩] "b" = ["a"] ∧
    ("a" ∈ toggleItem
        [⟨"a", "A", true, false, false⟩, ⟨"b", "B", true, false, false⟩,
          ⟨"c", "C", false, false, false⟩] "b" ↔ true = true) := by
  constructor
  · have h := (toggleItem_spec
      [⟨"a", "A", true, false, false⟩, ⟨"b", "B", true, false, false⟩,
        ⟨"c", "C", false, false, false⟩] "b").1 (by decide)
    rw [h]; decide
  · have h := (toggleItem_spec
      [⟨"a", "A", true, false, false⟩, ⟨"b", "B", true, false, false⟩,
        ⟨"c", "C", false, false, false⟩] "b").2.2 (by decide)
      ⟨"a", "A", true, false, false⟩ (by decide) (by decide)
    rw [h]

/-- C10 -- toggling the sole visible item emits the empty list: the legend
permits hiding every series. -/
theorem toggleItem_sole_visible_empty (items : List LegendItem)
    (itemId : String) (h : visibleIds items = [itemId]) :
    toggleItem items itemId = [] := by
  unfold toggleItem
  rw [h]
  simp

/-- Witness for C10: with only `b` visible, toggling `b` yields `[]`. -/
theorem toggleItem_sole_visible_empty_witness :
    toggleItem
        [⟨"a", "A", false, false, false⟩, ⟨"b", "B", true, false, false⟩]
        "b" = [] :=
  toggleItem_sole_visible_empty
    [⟨"a", "A", false, false, false⟩, ⟨"b", "B", true, false, false⟩]
    "b" (by decide)

/-! Keyboard navigation (`onKeyDown` of both variants). The key codes are
the `KeyCode` constants of the component toolkit: left 37, up 38, right 39,
down 40, home 36, end 35, escape 27. -/

/-- Modelled from the spec: `circleIndex` comes from
`@cloudscape-design/component-toolkit/internal`, which is not part of the
provided sources; the spec describes it as "circular indexing over
`[0, length-1]`" — an index below the range wraps to its upper bound and an
index above it wraps to its lower bound. -/
def circleIndex (index : Int) (range : Int × Int) : Int :=
  if index < range.1 then range.2
  else if index > range.2 then range.1
  else index

/-- `onKeyDown` of both variants: for the displayed item list of length `n`
and current focus index `selectedIndex`, return the index whose element is
focused, or `none` when the key moves no focus (Escape clears the highlight
instead; all other keys are not intercepted). `handleKey` dispatches
right/down to `+1`, left/up to `-1` (both through `circleIndex` over
`[0, n-1]`), home to `0`, end to `n-1`. -/
def onKeyDown (n selectedIndex : Nat) (keyCode : Nat) : Option Int :=
  let range : Int × Int := (0, (n : Int) - 1)
  if keyCode = 39 ∨ keyCode = 40 then
    some (circleIndex ((selectedIndex : Int) + 1) range)
  else if keyCode = 37 ∨ keyCode = 38 then
    some (circleIndex ((selectedIndex : Int) - 1) range)
  else if keyCode = 36 then some 0
  else if keyCode = 35 then some ((n : Int) - 1)
  else none

/-- C3 -- for a displayed list of length `n > 0` and focus index `i < n`:
arrow-right (39) and arrow-down (40) move focus to `(i+1) mod n`,
arrow-left (37) and arrow-up (38) to `(i-1) mod n` (wrapping at both ends),
Home (36) to `0` and End (35) to `n-1`. -/
theorem onKeyDown_navigation (n i : Nat) (hn : 0 < n) (hi : i < n) :
    onKeyDown n i 39 = some (((i : Int) + 1) % (n : Int)) ∧
    onKeyDown n i 40 = some (((i : Int) + 1) % (n : Int)) ∧
    onKeyDown n i 37 = some (((i : Int) - 1) % (n : Int)) ∧
    onKeyDown n i 38 = some (((i : Int) - 1) % (n : Int)) ∧
    onKeyDown n i 36 = some 0 ∧
    onKeyDown n i 35 = some ((n : Int) - 1) := by
  have hsucc : ((i : Int) + 1) % (n : Int) =
      if (i : Int) + 1 > (n : Int) - 1 then 0 else (i : Int) + 1 := by
    split
    · have : (i : Int) + 1 = (n : Int) := by omega
      rw [this, Int.emod_self]
    · rw [Int.emod_eq_of_lt (by omega) (by omega)]
  have hpred : ((i : Int) - 1) % (n : Int) =
      if (i : Int) - 1 < 0 then (n : Int) - 1 else (i : Int) - 1 := by
    split
    · have h0 : (i : Int) - 1 = -1 := by omega
      have h1 : (-1 : Int) = ((n : Int) - 1) + (n : Int) * (-1) := by ring
      rw [h0, h1, Int.add_mul_emod_self_left,
        Int.emod_eq_of_lt (by omega) (by omega)]
    · rw [Int.emod_eq_of_lt (by omega) (by omega)]
  refine ⟨?_, ?_, ?_, ?_, ?_, ?_⟩ <;>
    simp only [onKeyDown, circleIndex, hsucc, hpred] <;>
    norm_num <;> omega

/-- Witness for C3 at `n = 3`, `i = 2`: right wraps to `0`, left goes to
`1`, Home to `0`, End to `2`. -/
theorem onKeyDown_navigation_witness :
    onKeyDown 3 2 39 = some (((2 : Int) + 1) % (3 : Int)) ∧
    onKeyDown 3 2 40 = some (((2 : Int) + 1) % (3 : Int)) ∧
    onKeyDown 3 2 37 = some (((2 : Int) - 1) % (3 : Int)) ∧
    onKeyDown 3 2 38 = some (((2 : Int) - 1) % (3 : Int)) ∧
    onKeyDown 3 2 36 = some 0 ∧
    onKeyDown 3 2 35 = some ((3 : Int) - 1) :=
  onKeyDown_navigation 3 2 (by decide) (by decide)

/-! Focus-target resolution. The rendered buttons queried through
`querySelectorAll` correspond one-to-one, in order, to the displayed items
(each item renders exactly one `.item` button), so both resolvers are
embedded as returning the designated `LegendItem` (or `none` when no button
is designated). -/

namespace ChartLegend

/-- `getNextFocusTarget` of `chart-legend/index.tsx`:
`highlightedIndex = items.findIndex((item) => item.highlighted)` then
`buttons[highlightedIndex] ?? buttons[0]` — the first highlighted item when
one exists (JS `findIndex` yields `-1`, i.e. an out-of-range lookup,
otherwise), with fallback to the first button. -/
def getNextFocusTarget (items : List LegendItem) : Option LegendItem :=
  (items[items.findIdx (·.highlighted)]?).orElse (fun _ => items[0]?)

end ChartLegend

namespace LegendUnified

/-- `getNextFocusTarget` of the single-group variant:
`buttons[selectedIndex] ?? null` — the item at the last-focused index, or
`none` when that index is out of range. -/
def getNextFocusTarget (selectedIndex : Nat) (items : List LegendItem) :
    Option LegendItem :=
  items[selectedIndex]?

end LegendUnified

theorem getElem?_findIdx_of_find? {items : List LegendItem}
    {p : LegendItem → Bool} {x : LegendItem} (h : items.find? p = some x) :
    items[items.findIdx p]? = some x := by
  induction items with
  | nil => simp at h
  | cons a t ih =>
    rw [List.findIdx_cons]
    by_cases hpa : p a
    · rw [List.find?_cons_of_pos _ hpa] at h
      obtain rfl : a = x := by simpa using h
      simp [hpa]
    · rw [List.find?_cons_of_neg _ (by simp [hpa])] at h
      have hb : p a = false := by simpa using hpa
      simp [hb, ih h]

theorem findIdx_eq_length_of_none {items : List LegendItem}
    {p : LegendItem → Bool} (h : ∀ i ∈ items, p i = false) :
    items.findIdx p = items.length := by
  induction items with
  | nil => simp
  | cons a t ih =>
    rw [List.findIdx_cons, h a (by simp)]
    simp [ih (fun i hi => h i (by simp [hi]))]

/-- Counterexample to C4: in the single-group variant with items
`a` (not highlighted) and `b` (highlighted) and last-focused index `0`, the
resolved tab stop is `a`, not the highlighted item `b`. -/
theorem getNextFocusTarget_counterexample :
    LegendUnified.getNextFocusTarget 0
        [⟨"a", "A", true, false, false⟩, ⟨"b", "B", true, true, false⟩] =
      some ⟨"a", "A", true, false, false⟩ ∧
    (⟨"a", "A", true, false, false⟩ : LegendItem).highlighted = false ∧
    (⟨"b", "B", true, true, false⟩ : LegendItem).highlighted = true := by
  refine ⟨rfl, rfl, rfl⟩

/-- C4 (amended) -- in the dual-group chart legend the resolved tab stop is
the first highlighted item when one exists, else the first item, and for a
non-empty list exactly one item is designated; in the single-group variant
the tab stop is instead the item at the last-focused index, independent of
highlight, and `none` when that index is out of range. -/
theorem getNextFocusTarget_amended (items : List LegendItem)
    (x : LegendItem) (k : Nat) :
    (items ≠ [] → (ChartLegend.getNextFocusTarget items).isSome = true) ∧
    (items.find? (·.highlighted) = some x →
      ChartLegend.getNextFocusTarget items = some x) ∧
    ((∀ i ∈ items, i.highlighted = false) →
      ChartLegend.getNextFocusTarget items = items.head?) ∧
    LegendUnified.getNextFocusTarget k items = items[k]? := by
  refine ⟨fun hne => ?_, fun hfind => ?_, fun hnone => ?_, rfl⟩
  · unfold ChartLegend.getNextFocusTarget
    cases hfd : items.find? (·.highlighted) with
    | some y =>
      rw [getElem?_findIdx_of_find? hfd]
      rfl
    | none =>
      rw [findIdx_eq_length_of_none (by simpa using List.find?_eq_none.mp hfd),
        List.getElem?_length]
      cases items with
      | nil => exact absurd rfl hne
      | cons a t => simp [Option.orElse]
  · unfold ChartLegend.getNextFocusTarget
    rw [getElem?_findIdx_of_find? hfind]
    rfl
  · unfold ChartLegend.getNextFocusTarget
    rw [findIdx_eq_length_of_none hnone, List.getElem?_length]
    cases items with
    | nil => rfl
    | cons a t => simp [Option.orElse]

/-- Witness for C4 (amended): with `b` highlighted first in the list of the
dual-group legend, the tab stop is `b`; the single-group variant at index
`1` designates the second item. -/
theorem getNextFocusTarget_amended_witness :
    ((([⟨"b", "B", true, true, false⟩, ⟨"a", "A", true, false, false⟩] :
        List LegendItem)) ≠ [] →
      (ChartLegend.getNextFocusTarget
        [⟨"b", "B", true, true, false⟩,
          ⟨"a", "A", true, false, false⟩]).isSome = true) ∧
    ChartLegend.getNextFocusTarget
        [⟨"b", "B", true, true, false⟩, ⟨"a", "A", true, false, false⟩] =
      some ⟨"b", "B", true, true, false⟩ ∧
    LegendUnified.getNextFocusTarget 1
        [⟨"b", "B", true, true, false⟩, ⟨"a", "A", true, false, false⟩] =
      ([⟨"b", "B", true, true, false⟩,
        ⟨"a", "A", true, false, false⟩] : List LegendItem)[1]? := by
  have h := getNextFocusTarget_amended
    [⟨"b", "B", true, true, false⟩, ⟨"a", "A", true, false, false⟩]
    ⟨"b", "B", true, true, false⟩ 1
  exact ⟨h.1, h.2.1 (by decide), h.2.2.2⟩

/-! The document-level Escape listener (the `useEffect` guarded by
`tooltipItemId` in both variants). -/

/-- The effect begins `if (!tooltipItemId) return;` before installing the
document key listener: JavaScript treats both `null` and the empty string
as falsy, so the listener is installed only for a non-null, non-empty
`tooltipItemId`. -/
def escListenerInstalled : Option String → Bool
  | none => false
  | some s => !(s == "")

/-- `onDocumentKeyDown`, combined with the installation guard above:
`registry` models `elementsByIdRef.current` (the registered element per
item id, `none` when absent). When the listener is installed and the key
code is Escape (27), the handler calls `onHideTooltip(true)` — a locked
tooltip hide — and focuses the registered element of `tooltipItemId`
(`elementsByIdRef.current[tooltipItemId]?.focus()`, a silent no-op when the
element is missing); the result is `some (lockRequested, focusedElement)`.
Otherwise nothing happens (`none`). -/
def documentEscape (registry : String → Option Nat)
    (tooltipItemId : Option String) (keyCode : Nat) :
    Option (Bool × Option Nat) :=
  match tooltipItemId with
  | none => none
  | some s =>
    if s == "" then none
    else if keyCode = 27 then some (true, registry s) else none

/-- Counterexample to C5: with `tooltipItemId` equal to the empty string —
non-null, so by the claim a tooltip is shown — the listener is not
installed and pressing Escape requests nothing. -/
theorem documentEscape_counterexample :
    (some "" : Option String) ≠ none ∧
    escListenerInstalled (some "") = false ∧
    documentEscape (fun _ => none) (some "") 27 = none := by
  refine ⟨fun h => Option.noConfusion h, rfl, rfl⟩

/-- C5 (amended) -- the document-level Escape listener is installed exactly
when `tooltipItemId` is non-null and non-empty; while installed, Escape
requests a locked tooltip hide and focuses the registered element of
`tooltipItemId`; other keys do nothing, and with `tooltipItemId` null the
listener is not installed. -/
theorem documentEscape_amended (registry : String → Option Nat)
    (tid : String) (keyCode : Nat) :
    (escListenerInstalled (some tid) = true ↔ tid ≠ "") ∧
    escListenerInstalled none = false ∧
    (tid ≠ "" →
      documentEscape registry (some tid) 27 = some (true, registry tid)) ∧
    (keyCode ≠ 27 → documentEscape registry (some tid) keyCode = none) ∧
    documentEscape registry none keyCode = none := by
  refine ⟨?_, rfl, fun hne => ?_, fun hkc => ?_, rfl⟩
  · simp [escListenerInstalled]
  · simp [documentEscape, hne]
  · simp only [documentEscape]
    by_cases he : tid = ""
    · simp [he]
    · simp [he, hkc]

/-- Witness for C5 (amended) at `tooltipItemId = "x"` with element `7`
registered for `"x"`: Escape requests a locked hide focusing element `7`;
key code 35 does nothing. -/
theorem documentEscape_amended_witness :
    (escListenerInstalled (some "x") = true ↔ "x" ≠ "") ∧
    documentEscape (fun s => if s == "x" then some 7 else none) (some "x") 27 =
      some (true, if "x" == "x" then some 7 else none) ∧
    documentEscape (fun s => if s == "x" then some 7 else none) (some "x") 35 =
      none := by
  have h := documentEscape_amended
    (fun s => if s == "x" then some 7 else none) "x" 35
  exact ⟨h.1, h.2.2.1 (by decide), h.2.2.2.1 (by decide)⟩

/-! Blur handling (`onBlur` of both variants). -/

/-- The two actions the blur handler can request: the debounced
clear-highlight (`clearHighlight`, i.e.
`highlightControl.call(onItemHighlightExit, HIGHLIGHT_LOST_DELAY)`) and the
debounced tooltip hide (`onHideTooltip()`). -/
inductive BlurAction where
  | clearHighlight
  | hideTooltip
deriving Repr, DecidableEq

/-- `onBlur`: `tooltipSubtree` models `tooltipRef.current` together with
DOM `contains` — `none` when no tooltip element is rendered, otherwise the
list of nodes inside the tooltip subtree; `relatedTarget` is
`event.relatedTarget` (`none` when focus moves to no element). The handler
requests both actions only when
`tooltipRef.current && event.relatedTarget &&
!tooltipRef.current.contains(event.relatedTarget)`. -/
def onBlur (tooltipSubtree : Option (List Nat)) (relatedTarget : Option Nat) :
    List BlurAction :=
  match tooltipSubtree, relatedTarget with
  | some sub, some t =>
    if t ∈ sub then [] else [.clearHighlight, .hideTooltip]
  | _, _ => []

/-- Counterexample to C9: a tooltip element exists (subtree `[5]`) and the
blur has no related target — focus is not moving into the tooltip's
subtree, yet neither action fires. -/
theorem onBlur_counterexample :
    onBlur (some [5]) none = [] ∧
    BlurAction.clearHighlight ∉ onBlur (some [5]) none ∧
    BlurAction.hideTooltip ∉ onBlur (some [5]) none := by
  refine ⟨rfl, by decide, by decide⟩

/-- C9 (amended) -- on blur, the debounced clear-highlight and the tooltip
hide always fire together, and they fire exactly when a tooltip element
exists, the blur event has a related target, and that target is outside the
tooltip's subtree; when focus moves into the tooltip, or there is no
related target, or no tooltip element is rendered, neither fires. -/
theorem onBlur_amended (s : Option (List Nat)) (sub : List Nat)
    (rt : Option Nat) (t : Nat) :
    (BlurAction.clearHighlight ∈ onBlur s rt ↔
      BlurAction.hideTooltip ∈ onBlur s rt) ∧
    (onBlur (some sub) (some t) =
      if t ∈ sub then [] else [.clearHighlight, .hideTooltip]) ∧
    onBlur none rt = [] ∧
    onBlur s none = [] := by
  refine ⟨?_, rfl, ?_, ?_⟩
  · cases s with
    | none => simp [onBlur]
    | some sub2 =>
      cases rt with
      | none => simp [onBlur]
      | some t2 =>
        simp only [onBlur]
        split <;> simp
  · cases rt <;> rfl
  · cases s <;> rfl

/-! Layout decision: axis partitioning and the stacking threshold. -/

/-- The legend kind prop of the dual-group variant (`type: "single" | "dual"`). -/
inductive LegendKind where
  | single
  | dual
deriving Repr, DecidableEq

/-- The `useMemo` partition: for a single-axis legend all items form the
default group and the opposite group is empty; for a dual-axis legend the
items are split by their `oppositeAxis` flag into
`(defaultItems, oppositeItems)`. -/
def partitionItems : LegendKind → List LegendItem → List LegendItem × List LegendItem
  | .single, items => (items, [])
  | .dual, items =>
    (items.filter (fun item => !item.oppositeAxis),
      items.filter (·.oppositeAxis))

namespace ChartLegend

/-- The `ResizeObserver` callback: `setShouldStack(width < 400)`. Widths are
fractional pixels (`borderBoxSize[0].inlineSize`), modelled as rationals. -/
def shouldStackOfWidth (width : ℚ) : Bool := width < 400

/-- The `position` prop (`"bottom" | "side"`). -/
inductive Position where
  | bottom
  | side
deriving Repr, DecidableEq

/-- The shapes the render tree of `ChartLegend` can take. -/
inductive Layout where
  | bottomSingle
  | stackedColumn
  | sideBySideRow
  | sideColumn
deriving Repr, DecidableEq

/-- The JSX layout decision: `position === "side"` renders the side column;
`position === "bottom"` renders a single bottom group when the opposite
group is empty, two stacked side groups when `shouldStack`, and the
side-by-side `legend-bottom-dual-axis-container` row otherwise. -/
def renderLayout (position : Position) (oppositeCount : Nat)
    (shouldStack : Bool) : Layout :=
  match position with
  | .side => .sideColumn
  | .bottom =>
    if oppositeCount = 0 then .bottomSingle
    else if shouldStack then .stackedColumn
    else .sideBySideRow

end ChartLegend

namespace LegendUnified

/-- The `ChartLegendType` enum of the single-group variant. -/
inductive ChartLegendType where
  | bottom
  | stacked
  | stackedTop
  | stackedBottom
  | bottomLeft
  | bottomRight
deriving Repr, DecidableEq

/-- `type.startsWith("stacked")`. -/
def typeIsStackedVariant : ChartLegendType → Bool
  | .stacked | .stackedTop | .stackedBottom => true
  | _ => false

/-- `useContainerQuery((rect) => rect.borderBoxWidth <= SHOULD_STACK_SIZE)`
with `SHOULD_STACK_SIZE = 400`. -/
def shouldStackOfWidth (width : ℚ) : Bool := width ≤ 400

/-- `isStacked = type.startsWith("stacked") || shouldStack`. -/
def isStacked (ty : ChartLegendType) (shouldStack : Bool) : Bool :=
  typeIsStackedVariant ty || shouldStack

end LegendUnified

/-- C8 -- below 400 px both variants stack: the dual-group legend with a
non-empty opposite group renders the stacked column for any width strictly
below 400, and the single-group variant reports `isStacked` for every
requested type; at width 500 the same dual-axis legend renders the
side-by-side row, and the two groups are order-preserving sublists of the
item list that do not depend on the width at all. -/
theorem layout_stacking_below_threshold (width : ℚ)
    (items : List LegendItem) (ty : LegendUnified.ChartLegendType)
    (hw : width < 400) :
    (0 < (partitionItems .dual items).2.length →
      ChartLegend.renderLayout .bottom (partitionItems .dual items).2.length
        (ChartLegend.shouldStackOfWidth width) = .stackedColumn) ∧
    LegendUnified.isStacked ty (LegendUnified.shouldStackOfWidth width) = true ∧
    (0 < (partitionItems .dual items).2.length →
      ChartLegend.renderLayout .bottom (partitionItems .dual items).2.length
        (ChartLegend.shouldStackOfWidth 500) = .sideBySideRow) ∧
    (partitionItems .dual items).1.Sublist items ∧
    (partitionItems .dual items).2.Sublist items := by
  have hstack : ChartLegend.shouldStackOfWidth width = true := by
    simp [ChartLegend.shouldStackOfWidth, hw]
  have hno : ChartLegend.shouldStackOfWidth 500 = false := by
    simp [ChartLegend.shouldStackOfWidth]
    norm_num
  refine ⟨fun hpos => ?_, ?_, fun hpos => ?_, ?_, ?_⟩
  · simp [ChartLegend.renderLayout, hstack, Nat.pos_iff_ne_zero.mp hpos]
  · simp [LegendUnified.isStacked, LegendUnified.shouldStackOfWidth, le_of_lt hw]
  · simp [ChartLegend.renderLayout, hno, Nat.pos_iff_ne_zero.mp hpos]
  · exact List.filter_sublist _
  · exact List.filter_sublist _

/-- Witness for C8 at width 300 with one default and one opposite item and
requested type `bottom-right`. -/
theorem layout_stacking_below_threshold_witness :
    (0 < (partitionItems .dual
        [⟨"a", "A", true, false, false⟩, ⟨"b", "B", true, false, true⟩]).2.length →
      ChartLegend.renderLayout .bottom
        (partitionItems .dual
          [⟨"a", "A", true, false, false⟩, ⟨"b", "B", true, false, true⟩]).2.length
        (ChartLegend.shouldStackOfWidth 300) = .stackedColumn) ∧
    LegendUnified.isStacked .bottomRight
      (LegendUnified.shouldStackOfWidth 300) = true := by
  have h := layout_stacking_below_threshold 300
    [⟨"a", "A", true, false, false⟩, ⟨"b", "B", true, false, true⟩]
    .bottomRight (by norm_num)
  exact ⟨h.1, h.2.1⟩

/-! `DebouncedCall`. -/

/-- Modelled from the spec: the `DebouncedCall` class lives in
`src/internal/utils/utils`, which is not part of the provided sources; this
state follows the spec's contract. The instance holds at most one pending
scheduled action (`pending`: its fire time and the action) and a lock
expiry timestamp (`lockUntil`, `0` when never locked). -/
structure DebState (α : Type) where
  pending : Option (Nat × α)
  lockUntil : Nat

/-- Modelled from the spec: the operations of `DebouncedCall` —
`call(action, delayMs=0)`, `cancelPrevious()` and `lock(ms)`. -/
inductive DebOp (α : Type) where
  | call (action : α) (delayMs : Nat)
  | cancelPrevious
  | lock (ms : Nat)

/-- Modelled from the spec: the effect of one operation issued at time
`now`. A `call` issued while locked (`now < lockUntil`) is dropped entirely
(neither scheduled nor fired); an unlocked `call` replaces any pending
action with one firing at `now + delayMs`; `cancelPrevious` drops the
pending action with no replacement; `lock ms` marks the instance as locked
until `now + ms`. -/
def debStep {α : Type} (now : Nat) (s : DebState α) : DebOp α → DebState α
  | .call a d => if now < s.lockUntil then s else ⟨some (now + d, a), s.lockUntil⟩
  | .cancelPrevious => ⟨none, s.lockUntil⟩
  | .lock ms => ⟨s.pending, now + ms⟩

/-- Timer firing: a pending action whose fire time has been reached by
`now` fires (is returned) and is removed from the state. -/
def fireDue {α : Type} (now : Nat) (s : DebState α) : DebState α × List α :=
  match s.pending with
  | some (t, a) => if t ≤ now then (⟨none, s.lockUntil⟩, [a]) else (s, [])
  | none => (s, [])

/-- Runs a time-ordered schedule of operations from state `s`: due timers
fire before each operation, and finally every timer due by `horizon`;
returns the fired actions in order. -/
def runFrom {α : Type} (s : DebState α) :
    List (Nat × DebOp α) → Nat → List α
  | [], horizon => (fireDue horizon s).2
  | (t, op) :: rest, horizon =>
    (fireDue t s).2 ++ runFrom (debStep t (fireDue t s).1 op) rest horizon

/-- Runs a schedule on a freshly created `DebouncedCall` instance. -/
def runDebounced {α : Type} (ops : List (Nat × DebOp α)) (horizon : Nat) :
    List α :=
  runFrom ⟨none, 0⟩ ops horizon

/-- C6 -- two `call`s with the same delay `d`, the second issued before `d`
elapses from the first, produce exactly one firing, of the second call's
action; the first scheduled action never fires. -/
theorem debouncedCall_last_writer_wins {α : Type} (f1 f2 : α)
    (t1 t2 d horizon : Nat) (h12 : t1 ≤ t2) (hlt : t2 < t1 + d)
    (hh : t2 + d ≤ horizon) :
    runDebounced [(t1, .call f1 d), (t2, .call f2 d)] horizon = [f2] := by
  have e1 : fireDue t1 (⟨none, 0⟩ : DebState α) = (⟨none, 0⟩, []) := rfl
  have e2 : debStep t1 (⟨none, 0⟩ : DebState α) (.call f1 d) =
      ⟨some (t1 + d, f1), 0⟩ := by
    simp [debStep]
  have e3 : fireDue t2 (⟨some (t1 + d, f1), 0⟩ : DebState α) =
      (⟨some (t1 + d, f1), 0⟩, []) := by
    simp only [fireDue]
    rw [if_neg (by omega)]
  have e4 : debStep t2 (⟨some (t1 + d, f1), 0⟩ : DebState α) (.call f2 d) =
      ⟨some (t2 + d, f2), 0⟩ := by
    simp [debStep]
  have e5 : fireDue horizon (⟨some (t2 + d, f2), 0⟩ : DebState α) =
      (⟨none, 0⟩, [f2]) := by
    simp only [fireDue]
    rw [if_pos (by omega)]
  simp only [runDebounced, runFrom, e1, e2, e3, e4, e5, List.nil_append]

/-- Witness for C6: calls at times 0 and 30 with delay 50 over horizon 100
fire only the second action. -/
theorem debouncedCall_last_writer_wins_witness :
    runDebounced [(0, .call 1 50), (30, .call 2 50)] 100 = [2] :=
  debouncedCall_last_writer_wins 1 2 0 30 50 100 (by decide) (by decide)
    (by decide)

/-- Counterexample to C7: a call issued at time 0 (with delay 100) is
issued before the expiry (60) of the lock taken at time 10 for 50, yet its
action still fires at time 100 — `lock` drops only calls issued while the
lock is active and leaves an already-pending action untouched. -/
theorem debouncedCall_lock_counterexample :
    runDebounced (α := Nat) [(0, .call 1 100), (10, .lock 50)] 110 = [1] ∧
    0 < 10 + 50 := by
  exact ⟨rfl, by decide⟩

/-- C7 (amended) -- a `call` issued while the lock is active (at or after
the `lock` invocation and before its expiry) is dropped entirely: the state
is unchanged, so its action is never scheduled and never fires. In
particular, after the Escape-triggered `hideTooltip(true)` — which
schedules the hide with delay 50 and then locks for 50 — a tooltip-show
call issued during the lock window never fires, so only the hide action
runs and the resulting `tooltipItemId` is `null`. A call already pending
when `lock` is invoked is unaffected. -/
theorem debouncedCall_lock_amended {α : Type} (s : DebState α) (a : α)
    (d tc t ts : Nat) (itemId : String) :
    (tc < s.lockUntil → debStep tc s (.call a d) = s) ∧
    (t ≤ ts → ts < t + 50 →
      runDebounced [(t, .call (none : Option String) 50), (t, .lock 50),
        (ts, .call (some itemId) 0)] (t + 50) = [none]) := by
  constructor
  · intro h
    simp [debStep, h]
  · intro hts hlt
    have e1 : fireDue t (⟨none, 0⟩ : DebState (Option String)) =
        (⟨none, 0⟩, []) := rfl
    have e2 : debStep t (⟨none, 0⟩ : DebState (Option String))
        (.call none 50) = ⟨some (t + 50, none), 0⟩ := by
      simp [debStep]
    have e3 : fireDue t (⟨some (t + 50, none), 0⟩ : DebState (Option String)) =
        (⟨some (t + 50, none), 0⟩, []) := by
      simp only [fireDue]
      rw [if_neg (by omega)]
    have e4 : debStep t (⟨some (t + 50, none), 0⟩ : DebState (Option String))
        (.lock 50) = ⟨some (t + 50, none), t + 50⟩ := rfl
    have e5 : fireDue ts
        (⟨some (t + 50, none), t + 50⟩ : DebState (Option String)) =
        (⟨some (t + 50, none), t + 50⟩, []) := by
      simp only [fireDue]
      rw [if_neg (by omega)]
    have e6 : debStep ts
        (⟨some (t + 50, none), t + 50⟩ : DebState (Option String))
        (.call (some itemId) 0) = ⟨some (t + 50, none), t + 50⟩ := by
      simp [debStep]
      omega
    have e7 : fireDue (t + 50)
        (⟨some (t + 50, none), t + 50⟩ : DebState (Option String)) =
        (⟨none, t + 50⟩, [none]) := by
      simp only [fireDue]
      rw [if_pos (by omega)]
    simp only [runDebounced, runFrom, e1, e2, e3, e4, e5, e6, e7,
      List.nil_append]

/-- Witness for C7 (amended): a locked instance (lock expiry 5) drops a
call issued at time 3; the Escape scenario at `t = 100` with a show issued
at time 120 fires only the hide. -/
theorem debouncedCall_lock_amended_witness :
    debStep 3 (⟨some (3, 9), 5⟩ : DebState Nat) (.call 7 2) =
      ⟨some (3, 9), 5⟩ ∧
    runDebounced [(100, .call (none : Option String) 50), (100, .lock 50),
      (120, .call (some "x") 0)] (100 + 50) = [none] := by
  have h := debouncedCall_lock_amended (⟨some (3, 9), 5⟩ : DebState Nat)
    7 2 3 100 120 "x"
  exact ⟨h.1 (by decide), h.2 (by decide) (by decide)⟩

end ChartComponents
